import Mathlib

/-!
# Shallow embedding of the aidpcoin-stratum-proxy core (`src/main.py`)

Byte strings are modelled as `List Nat` with every element kept below 256 by
construction.  Python integer overflow (`int.to_bytes` raising `OverflowError`),
out-of-range indexing (`IndexError`), bad hex (`ValueError`) and bad base58
checksums are modelled by `Option`: a `none` result stands for an uncaught
Python exception.  All machine arithmetic is `Nat` with explicit `% 2^w`.
-/

namespace StratumProxy

/-- Big-endian bytes of `n` truncated to width `w` (low-order `w` bytes). -/
def beBytes : Nat → Nat → List Nat
  | 0, _ => []
  | w + 1, n => beBytes w (n / 256) ++ [n % 256]

/-- Little-endian bytes of `n` truncated to width `w`. -/
def leBytes : Nat → Nat → List Nat
  | 0, _ => []
  | w + 1, n => n % 256 :: leBytes w (n / 256)

/-- Python `n.to_bytes(w, 'big')`: fails (`OverflowError`) when `n` does not fit. -/
def toBytesBE (w n : Nat) : Option (List Nat) :=
  if n < 256 ^ w then some (beBytes w n) else none

/-- Python `n.to_bytes(w, 'little')`: fails (`OverflowError`) when `n` does not fit. -/
def toBytesLE (w n : Nat) : Option (List Nat) :=
  if n < 256 ^ w then some (leBytes w n) else none

/-- Minimal big-endian byte string of `n` (empty for 0), as produced by
`n.to_bytes((n.bit_length()+7)//8, 'big')` in the base58 library.  The first
argument is structural fuel; `n` itself is always enough fuel. -/
def natToBEminAux : Nat → Nat → List Nat
  | 0, _ => []
  | fuel + 1, n => if n = 0 then [] else natToBEminAux fuel (n / 256) ++ [n % 256]

def natToBEmin (n : Nat) : List Nat := natToBEminAux n n

/-! ## SHA-256 (the `hashlib.sha256` collaborator), FIPS 180-4 -/

def shaK : List Nat :=
  [1116352408, 1899447441, 3049323471, 3921009573, 961987163,
   1508970993, 2453635748, 2870763221, 3624381080, 310598401,
   607225278, 1426881987, 1925078388, 2162078206, 2614888103,
   3248222580, 3835390401, 4022224774, 264347078, 604807628,
   770255983, 1249150122, 1555081692, 1996064986, 2554220882,
   2821834349, 2952996808, 3210313671, 3336571891, 3584528711,
   113926993, 338241895, 666307205, 773529912, 1294757372,
   1396182291, 1695183700, 1986661051, 2177026350, 2456956037,
   2730485921, 2820302411, 3259730800, 3345764771, 3516065817,
   3600352804, 4094571909, 275423344, 430227734, 506948616,
   659060556, 883997877, 958139571, 1322822218, 1537002063,
   1747873779, 1955562222, 2024104815, 2227730452, 2361852424,
   2428436474, 2756734187, 3204031479, 3329325298]

def shaH0 : List Nat :=
  [1779033703, 3144134277, 1013904242, 2773480762, 1359893119,
   2600822924, 528734635, 1541459225]

/-- Right rotation of a 32-bit word (input assumed `< 2^32`). -/
def rotr32 (n x : Nat) : Nat := x / 2 ^ n + x % 2 ^ n * 2 ^ (32 - n)

def xor32 (a b : Nat) : Nat := a ^^^ b

/-- 32-bit complement of `x < 2^32`. -/
def not32 (x : Nat) : Nat := 4294967295 - x

/-- Big-endian 32-bit words from a byte string (length a multiple of 4). -/
def toWords32 : List Nat → List Nat
  | a :: b :: c :: d :: rest => (((a * 256 + b) * 256 + c) * 256 + d) :: toWords32 rest
  | _ => []

def shaSmall0 (x : Nat) : Nat := xor32 (xor32 (rotr32 7 x) (rotr32 18 x)) (x / 2 ^ 3)
def shaSmall1 (x : Nat) : Nat := xor32 (xor32 (rotr32 17 x) (rotr32 19 x)) (x / 2 ^ 10)
def shaBig0 (x : Nat) : Nat := xor32 (xor32 (rotr32 2 x) (rotr32 13 x)) (rotr32 22 x)
def shaBig1 (x : Nat) : Nat := xor32 (xor32 (rotr32 6 x) (rotr32 11 x)) (rotr32 25 x)

/-- Extend a 16-word message block to the 64-word schedule. -/
def shaSched (w : List Nat) : List Nat :=
  (List.range 48).foldl
    (fun acc i =>
      acc ++ [(shaSmall1 (acc.getD (i + 14) 0) + acc.getD (i + 9) 0 +
               shaSmall0 (acc.getD (i + 1) 0) + acc.getD i 0) % 4294967296])
    w

/-- One SHA-256 round on the eight-word working state. -/
def shaRound (st : Nat × Nat × Nat × Nat × Nat × Nat × Nat × Nat) (kw : Nat × Nat) :
    Nat × Nat × Nat × Nat × Nat × Nat × Nat × Nat :=
  match st, kw with
  | (a, b, c, d, e, f, g, h), (k, w) =>
    let t1 := (h + shaBig1 e + (xor32 (e &&& f) (not32 e &&& g)) + k + w) % 4294967296
    let t2 := (shaBig0 a + (xor32 (xor32 (a &&& b) (a &&& c)) (b &&& c))) % 4294967296
    ((t1 + t2) % 4294967296, a, b, c, (d + t1) % 4294967296, e, f, g)

/-- Compress one 64-byte block into the running eight-word state. -/
def shaCompress (st : List Nat) (block : List Nat) : List Nat :=
  let w := shaSched (toWords32 block)
  let init : Nat × Nat × Nat × Nat × Nat × Nat × Nat × Nat :=
    (st.getD 0 0, st.getD 1 0, st.getD 2 0, st.getD 3 0,
     st.getD 4 0, st.getD 5 0, st.getD 6 0, st.getD 7 0)
  match (shaK.zip w).foldl shaRound init with
  | (a, b, c, d, e, f, g, h) =>
    [(st.getD 0 0 + a) % 4294967296, (st.getD 1 0 + b) % 4294967296,
     (st.getD 2 0 + c) % 4294967296, (st.getD 3 0 + d) % 4294967296,
     (st.getD 4 0 + e) % 4294967296, (st.getD 5 0 + f) % 4294967296,
     (st.getD 6 0 + g) % 4294967296, (st.getD 7 0 + h) % 4294967296]

/-- Fold the compression over consecutive 64-byte blocks (fuel-based recursion;
the message length is always sufficient fuel). -/
def shaBlocks : Nat → List Nat → List Nat → List Nat
  | _, st, [] => st
  | 0, st, _ => st
  | fuel + 1, st, l => shaBlocks fuel (shaCompress st (l.take 64)) (l.drop 64)

/-- FIPS 180-4 padding: `0x80`, zeros to 56 mod 64, 8-byte big-endian bit length. -/
def shaPad (msg : List Nat) : List Nat :=
  msg ++ [0x80] ++ List.replicate ((120 - (msg.length + 1) % 64) % 64) 0 ++
    beBytes 8 (msg.length * 8)

/-- `hashlib.sha256(msg).digest()`. -/
def sha256 (msg : List Nat) : List Nat :=
  let p := shaPad msg
  (shaBlocks p.length shaH0 p).flatMap (beBytes 4)

/-- `dsha256` from the source: `sha256(sha256(b))`. -/
def dsha256 (b : List Nat) : List Nat := sha256 (sha256 b)

/-! ## Keccak-256 (the `sha3.keccak_256` collaborator, original 0x01 padding) -/

def keccakRC : List Nat :=
  [1, 32898, 9223372036854808714,
   9223372039002292224, 32907, 2147483649,
   9223372039002292353, 9223372036854808585, 138,
   136, 2147516425, 2147483658,
   2147516555, 9223372036854775947, 9223372036854808713,
   9223372036854808579, 9223372036854808578, 9223372036854775936,
   32778, 9223372039002259466, 9223372039002292353,
   9223372036854808704, 2147483649, 9223372039002292232]

/-- Rho rotation offsets, stored row-major by `x`: entry `5*x + y` is the
offset for lane `(x, y)`. -/
def keccakRho : List Nat :=
  [0, 36, 3, 41, 18,
   1, 44, 10, 45, 2,
   62, 6, 43, 15, 61,
   28, 55, 25, 21, 56,
   27, 20, 39, 8, 14]

def mask64 : Nat := 18446744073709551615

/-- Left rotation of a 64-bit lane (input assumed `< 2^64`). -/
def rotl64 (n x : Nat) : Nat :=
  let n' := n % 64
  x % 2 ^ (64 - n') * 2 ^ n' + x / 2 ^ (64 - n')

def not64 (x : Nat) : Nat := mask64 - x

/-- The state is 25 lanes, lane `(x, y)` at index `x + 5*y`. -/
def keccakTheta (A : List Nat) : List Nat :=
  let C := (List.range 5).map fun x =>
    (A.getD x 0) ^^^ (A.getD (x + 5) 0) ^^^ (A.getD (x + 10) 0) ^^^
      (A.getD (x + 15) 0) ^^^ (A.getD (x + 20) 0)
  let D := (List.range 5).map fun x => (C.getD ((x + 4) % 5) 0) ^^^ rotl64 1 (C.getD ((x + 1) % 5) 0)
  (List.range 25).map fun i => (A.getD i 0) ^^^ (D.getD (i % 5) 0)

/-- Rho and pi: the output lane `(xB, yB)` takes `rotl(A[xS, yS], rho[xS, yS])`
where `yS = xB` and `xS` solves `(2*xS + 3*yS) % 5 = yB` (3 inverts 2 mod 5). -/
def keccakRhoPi (A : List Nat) : List Nat :=
  (List.range 25).map fun i =>
    let xB := i % 5
    let yB := i / 5
    let yS := xB
    let xS := 3 * ((yB + 15 - 3 * xB % 5) % 5) % 5
    rotl64 (keccakRho.getD (5 * xS + yS) 0) (A.getD (xS + 5 * yS) 0)

def keccakChi (A : List Nat) : List Nat :=
  (List.range 25).map fun i =>
    let x := i % 5
    let y := i / 5
    (A.getD (x + 5 * y) 0) ^^^
      (not64 (A.getD ((x + 1) % 5 + 5 * y) 0) &&& A.getD ((x + 2) % 5 + 5 * y) 0)

def keccakRound (A : List Nat) (rc : Nat) : List Nat :=
  let A1 := keccakChi (keccakRhoPi (keccakTheta A))
  match A1 with
  | a0 :: rest => (a0 ^^^ rc) :: rest
  | [] => []

def keccakF (A : List Nat) : List Nat := keccakRC.foldl keccakRound A

/-- Little-endian 64-bit lanes from a byte string (length a multiple of 8). -/
def toLanes : List Nat → List Nat
  | b0 :: b1 :: b2 :: b3 :: b4 :: b5 :: b6 :: b7 :: rest =>
    (b0 + 256 * (b1 + 256 * (b2 + 256 * (b3 + 256 * (b4 + 256 * (b5 + 256 * (b6 + 256 * b7))))))) ::
      toLanes rest
  | _ => []

/-- Absorb one 136-byte block: xor its 17 lanes into the state, then permute. -/
def keccakAbsorbBlock (A : List Nat) (block : List Nat) : List Nat :=
  let lanes := toLanes block
  keccakF ((List.range 25).map fun i =>
    if i < 17 then (A.getD i 0) ^^^ (lanes.getD i 0) else A.getD i 0)

def keccakAbsorb : Nat → List Nat → List Nat → List Nat
  | _, A, [] => A
  | 0, A, _ => A
  | fuel + 1, A, l => keccakAbsorb fuel (keccakAbsorbBlock A (l.take 136)) (l.drop 136)

/-- Keccak pad10*1 with domain byte 0x01 (original Keccak, as in `sha3.keccak_256`). -/
def keccakPad (msg : List Nat) : List Nat :=
  let zeros := (135 - msg.length % 136) % 136
  let body := msg ++ [1] ++ List.replicate zeros 0
  body.dropLast ++ [body.getLastD 0 + 128]

/-- `sha3.keccak_256(msg).digest()`. -/
def keccak256 (msg : List Nat) : List Nat :=
  let p := keccakPad msg
  let A := keccakAbsorb p.length (List.replicate 25 0) p
  (A.take 4).flatMap (leBytes 8)

/-! ## Hex and base58 codecs (the `bytes.fromhex` / `base58` collaborators) -/

def hexVal (c : Char) : Option Nat :=
  if '0' ≤ c ∧ c ≤ '9' then some (c.toNat - '0'.toNat)
  else if 'a' ≤ c ∧ c ≤ 'f' then some (c.toNat - 'a'.toNat + 10)
  else if 'A' ≤ c ∧ c ≤ 'F' then some (c.toNat - 'A'.toNat + 10)
  else none

/-- `bytes.fromhex`: fails (`ValueError`) on odd length or a non-hex digit. -/
def fromHexList : List Char → Option (List Nat)
  | [] => some []
  | [_] => none
  | a :: b :: rest =>
    match hexVal a, hexVal b, fromHexList rest with
    | some x, some y, some r => some ((x * 16 + y) :: r)
    | _, _, _ => none

def fromHex (s : String) : Option (List Nat) := fromHexList s.toList

def b58Alphabet : List Char :=
  "123456789ABCDEFGHJKLMNPQRSTUVWXYZabcdefghijkmnopqrstuvwxyz".toList

def b58Val (c : Char) : Option Nat :=
  let i := b58Alphabet.indexOf c
  if i < 58 then some i else none

def b58Vals : List Char → Option (List Nat)
  | [] => some []
  | c :: rest =>
    match b58Val c, b58Vals rest with
    | some v, some r => some (v :: r)
    | _, _ => none

/-- `base58.b58decode`: base-58 digits to a big integer, minimal big-endian
bytes, one leading zero byte per leading `'1'`. -/
def b58decode (s : String) : Option (List Nat) :=
  match b58Vals s.toList with
  | none => none
  | some ds =>
    let n := ds.foldl (fun a d => a * 58 + d) 0
    some (List.replicate (s.toList.takeWhile (· = '1')).length 0 ++ natToBEmin n)

/-- `base58.b58decode_check`: strip and verify the 4-byte double-sha256 checksum. -/
def b58decode_check (s : String) : Option (List Nat) :=
  match b58decode s with
  | none => none
  | some b =>
    let payload := b.take (b.length - 4)
    let chk := b.drop (b.length - 4)
    if (dsha256 payload).take 4 = chk then some payload else none

/-! ## Binary codec from the source: `var_int` and `op_push` -/

/-- `var_int` from the source.  Note the source writes the multi-byte widths
with `'big'` byte order. -/
def var_int (i : Nat) : Option (List Nat) :=
  if i < 0xfd then toBytesBE 1 i
  else if i ≤ 0xffff then (toBytesBE 2 i).map ([0xfd] ++ ·)
  else if i ≤ 0xffffffff then (toBytesBE 4 i).map ([0xfe] ++ ·)
  else (toBytesBE 8 i).map ([0xff] ++ ·)

/-- `op_push` from the source.  The multi-byte length fields are written with
`'big'` byte order, and `i ≥ 2^32` overflows `to_bytes(4, 'big')`. -/
def op_push (i : Nat) : Option (List Nat) :=
  if i < 0x4C then toBytesBE 1 i
  else if i ≤ 0xff then (toBytesBE 1 i).map ([0x4C] ++ ·)
  else if i ≤ 0xffff then (toBytesBE 2 i).map ([0x4D] ++ ·)
  else (toBytesBE 4 i).map ([0x4E] ++ ·)

/-! ## Merkle root (`merkle_from_txids`)

The Python loop body is `txids.append(txids[-1])` followed by
`txids = list(dsha256(l+r) for l, r in zip(*(iter(txids),)*2))`: the last
element is duplicated unconditionally and `zip` then drops an odd leftover.
Only the first `append` mutates the caller's list object; the rebinding makes
all later iterations act on fresh lists.  `merkle_from_txids` therefore
returns a pair: the root and the caller's list as left after the call. -/

def chunkPairs : List α → List (α × α)
  | a :: b :: rest => (a, b) :: chunkPairs rest
  | _ => []

/-- One `while` iteration: duplicate the last element, then hash adjacent pairs
(`zip` drops the odd element out). -/
def merkleStep (l : List (List Nat)) : List (List Nat) :=
  (chunkPairs (l ++ [l.getLastD []])).map fun p => dsha256 (p.1 ++ p.2)

/-- The `while len(txids) > 1` loop, with structural fuel; any fuel at least
the list length is enough because every step shrinks the list. -/
def merkleLoop : Nat → List (List Nat) → List Nat
  | 0, l => l.headD []
  | fuel + 1, l => if l.length ≤ 1 then l.headD [] else merkleLoop fuel (merkleStep l)

/-- `merkle_from_txids`: returns `(root, state of the argument list object
after the call)`. -/
def merkle_from_txids (txids : List (List Nat)) : List Nat × List (List Nat) :=
  if txids.isEmpty then (dsha256 [], txids)
  else if txids.length = 1 then (txids.headD [], txids)
  else (merkleLoop (txids.length + 1) txids, txids ++ [txids.getLastD []])

/-! ## The shared work state (`TransactionState`) -/

def KAWPOW_EPOCH_LENGTH : Nat := 7500

/-- Class constant `update_coinbase_every = 10 * 60 * 10`. -/
def update_coinbase_every : Nat := 10 * 60 * 10

structure TransactionState where
  coinbase : Option (List Nat) := none
  coinbase_no_wit : Option (List Nat) := none
  /-- `tx.transport = self` in `StratumSession.__init__`: the single transport
  notifications are sent to, identified here by a session id. -/
  transport : Option Nat := none
  transactions : List (List Nat) := []
  update_counter : Nat := update_coinbase_every
  my_address : Option String := none
  merkle : Option (List Nat) := none
  header_hash : Option (List Nat) := none
  seed_hash : Option (List Nat) := none
  last_ts : Option Nat := none
  partial_header : Option (List Nat) := none
  wait_for_new_block : Bool := false
  deriving DecidableEq, Repr

def initialState : TransactionState := {}

/-- `StratumSession.__init__` effect on the shared state: the newest session
overwrites `transport`. -/
def registerTransport (s : TransactionState) (sid : Nat) : TransactionState :=
  { s with transport := some sid }

/-- `TransactionState.clear_for_new_height`: empties only the transaction
list; every other field (including the derived hashes) is left as it was. -/
def clear_for_new_height (s : TransactionState) : TransactionState :=
  { s with transactions := [] }

/-- The seed-hash loop of `update_transactions`: start from 32 zero bytes and
apply one `keccak_256` per full epoch (`height // KAWPOW_EPOCH_LENGTH` times). -/
def seed_hash_of (height : Nat) : List Nat :=
  (List.range (height / KAWPOW_EPOCH_LENGTH)).foldl (fun sd _ => keccak256 sd)
    (List.replicate 32 0)

/-- The fixed tag embedded in the coinbase input script. -/
def arbitrary_data : List Nat :=
  "/with a little help from http://github.com/kralverde/ravencoin-stratum-proxy/".toList.map
    Char.toNat

/-- The BIP34-style height bytes of `build_coinbase_transaction`: the 4-byte
little-endian height with trailing zero bytes stripped, preceded by a length
byte.  At `height = 0` the stripping `while` empties the bytes and the next
`make_height[-1]` raises `IndexError` (`none` here); at `height ≥ 2^32`
`to_bytes(4, 'little')` overflows. -/
def bip34_height_bytes (height : Nat) : Option (List Nat) :=
  match toBytesLE 4 height with
  | none => none
  | some mh0 =>
    let mh := (mh0.reverse.dropWhile (· = 0)).reverse
    if mh.isEmpty then none else some ([mh.length] ++ mh)

/-- `TransactionState.build_coinbase_transaction`, returning
`(coinbase, coinbase_no_wit)`. -/
def build_coinbase_transaction (height : Nat) (flags : String) (my_address : String)
    (my_sats : Nat) (witness_commitment : List Nat) : Option (List Nat × List Nat) := do
  let bip34pre ← bip34_height_bytes height
  let flagBytes ← if flags = "" then some [0] else fromHex flags
  let bip34_height := bip34pre ++ flagBytes
  let lenBytes ← var_int (bip34_height.length + arbitrary_data.length)
  let coinbase_txin := List.replicate 32 0 ++ [0xff, 0xff, 0xff, 0xff] ++ lenBytes ++
    bip34_height ++ arbitrary_data ++ [0xff, 0xff, 0xff, 0xff]
  let decoded ← b58decode_check my_address
  let vout1 := [0x76, 0xa9, 0x14] ++ decoded.drop 1 ++ [0x88, 0xac]
  let satsBytes ← toBytesLE 8 my_sats
  let push1 ← op_push vout1.length
  let push2 ← op_push witness_commitment.length
  let outs := [0x02] ++ satsBytes ++ push1 ++ vout1 ++ List.replicate 8 0 ++ push2 ++
    witness_commitment
  pure (leBytes 4 1 ++ [0x00, 0x01] ++ [0x01] ++ coinbase_txin ++ outs ++
          [0x01, 0x20] ++ List.replicate 32 0 ++ List.replicate 4 0,
        leBytes 4 1 ++ [0x01] ++ coinbase_txin ++ outs ++ List.replicate 4 0)

/-- The timestamp munging of `update_transactions` ("lock in the funny
numbers").  `str(ts)[-3]` raises `IndexError` when `ts < 100`. -/
def funnyTs (ts : Nat) : Option Nat :=
  if ts < 100 then none
  else
    let t1 := if ts / 100 % 10 = 4 then ts / 100 * 100 + 20 else ts
    some (if t1 / 10 % 10 = 6 then t1 / 10 * 10 + 9 else t1)

/-- The `last_ts` retention rule ("hold on to the funny numbers"):
`str(None)` does not end in `'420'`/`'69'`, so an unset `last_ts` is simply
replaced; a held funny timestamp only moves after more than five minutes. -/
def holdLastTs (last : Option Nat) (ts : Nat) : Nat :=
  match last with
  | some v =>
    if v % 1000 = 420 ∨ v % 100 = 69 then (if ts > v + 60 * 5 then ts else v) else ts
  | none => ts

/-- Python truthiness of the optional address (`None` and `''` are falsy). -/
def truthyStr : Option String → Bool
  | none => false
  | some s => s ≠ ""

/-- Parse the incoming mempool entries: `bytes.fromhex(tx['data'])` and
`bytes.fromhex(tx['txid'])[::-1]`. -/
def parseIncoming : List (String × String) → Option (List (List Nat × List Nat))
  | [] => some []
  | (dataHex, txidHex) :: rest =>
    match fromHex dataHex, fromHex txidHex, parseIncoming rest with
    | some d, some t, some r => some ((d, t.reverse) :: r)
    | _, _, _ => none

/-- `TransactionState.update_transactions`.  Returns `some (value, state')`
for a normal return and `none` for an uncaught exception.  Note the source
returns `True` immediately (with no mutation at all) when
`wait_for_new_block` is set. -/
def update_transactions (s : TransactionState) (new_height : Bool) (version height : Nat)
    (bits : List Nat) (ts : Nat) (prev_hash : List Nat)
    (incoming_transactions : List (String × String)) (my_sats : Nat)
    (witness_commitment : List Nat) (flags : String) : Option (Bool × TransactionState) :=
  if s.wait_for_new_block then some (true, s)
  else
    match funnyTs ts with
    | none => none
    | some ts2 =>
      let lastTs := holdLastTs s.last_ts ts2
      let cnt := s.update_counter + 1
      match s.my_address with
      | none => some (false, { s with last_ts := some lastTs, update_counter := cnt })
      | some addr =>
        if addr = "" then some (false, { s with last_ts := some lastTs, update_counter := cnt })
        else
          let doCoinbase := new_height || decide (cnt ≥ update_coinbase_every)
          let cnt2 := if doCoinbase then 0 else cnt
          if doCoinbase || decide (s.transactions.length ≠ incoming_transactions.length + 1) then
            match (if doCoinbase then
                     build_coinbase_transaction height flags addr my_sats witness_commitment
                   else
                     match s.coinbase, s.coinbase_no_wit with
                     | some c, some d => some (c, d)
                     | _, _ => none) with
            | none => none
            | some (cb, cbnw) =>
              match parseIncoming incoming_transactions with
              | none => none
              | some parsed =>
                let new_transactions := cb :: parsed.map (·.1)
                let transaction_ids := dsha256 cbnw :: parsed.map (·.2)
                let mk := (merkle_from_txids transaction_ids).1
                match toBytesBE 4 height, toBytesBE 4 lastTs, toBytesBE 4 version with
                | some heightB, some tsB, some versionB =>
                  let ph := heightB ++ bits ++ tsB ++ mk.reverse ++ prev_hash ++ versionB
                  some (true,
                    { s with
                      coinbase := some cb
                      coinbase_no_wit := some cbnw
                      transactions := new_transactions
                      merkle := some mk
                      partial_header := some ph
                      header_hash := some ((dsha256 ph.reverse).reverse)
                      seed_hash := some (seed_hash_of height)
                      last_ts := some lastTs
                      update_counter := cnt2 })
                | _, _, _ => none
          else some (false, { s with last_ts := some lastTs, update_counter := cnt2 })

/-- `TransactionState.partial_block`: fails when `partial_header` is still
`None` (Python `None[::-1]` raises `TypeError`). -/
def partial_block (s : TransactionState) : Option (List Nat × List Nat) :=
  match s.partial_header, var_int s.transactions.length with
  | some ph, some vi => some (ph.reverse, vi ++ s.transactions.flatten)
  | _, _ => none

/-! ## The Stratum `mining.submit` handler -/

deriving instance DecidableEq for Except

/-- Python truthiness of the node's `error` / `result` response fields:
a missing field or JSON `null` is `None`, and an empty string is also falsy. -/
def truthyResp : Option String → Bool
  | none => false
  | some s => s ≠ ""

/-- `handle_submit` from `StratumSession.handle_request`, given the node's
`submitblock` response fields as parameters.  The result value is
`Except.error (code, message)` for a raised `RPCError` and `Except.ok true`
for a successful return; the handler clears the held work *before* the
submission regardless of the outcome. -/
def handle_submit (s : TransactionState) (nonce_hex mixhash_hex : String)
    (resp_error resp_result : Option String) :
    Option (Except (Nat × String) Bool × TransactionState) :=
  if s.wait_for_new_block || s.transactions.isEmpty then
    some (Except.error (1, "Waiting for next block template"), s)
  else
    match partial_block s, fromHex ((nonce_hex.drop 2)), fromHex ((mixhash_hex.drop 2)) with
    | some (blockA, blockB), some nonceB, some mixB =>
      let _full_block := blockA ++ nonceB.reverse ++ mixB.reverse ++ blockB
      let s1 := clear_for_new_height s
      if truthyResp resp_error then
        some (Except.error (1, resp_error.getD ""), clear_for_new_height s1)
      else if truthyResp resp_result then
        some (Except.error (1, resp_result.getD ""), clear_for_new_height s1)
      else
        some (Except.ok true, { s1 with wait_for_new_block := true })
    | _, _, _ => none

/-! ## One synchronizer tick (`query_loop` body) -/

structure TemplateResult where
  height : Nat
  version : Nat
  bits : String
  previousblockhash : String
  transactions : List (String × String)
  coinbasevalue : Nat
  default_witness_commitment : String
  flags : String
  target : String
  deriving DecidableEq, Repr

/-- A server-initiated Stratum notification. -/
inductive Notif where
  | setTarget (target : String)
  | notify (job_id : String) (header_hash seed_hash : List Nat) (target : String)
      (clean_jobs : Bool) (height : Int) (bits : String)
  deriving DecidableEq, Repr

def Notif.isSetTarget : Notif → Bool
  | .setTarget _ => true
  | _ => false

def Notif.cleanFlag : Notif → Bool
  | .notify _ _ _ _ c _ _ => c
  | _ => false

/-- One iteration of `query_loop`: takes the shared state, the loop's last
observed height (initially `-1`), the node's `getblocktemplate` result and the
wall clock; returns the new state, the new observed height, and the list of
notifications sent, each tagged with the transport (session id) it went to. -/
def query_loop_tick (s : TransactionState) (height : Int) (r : TemplateResult) (now : Nat) :
    Option (TransactionState × Int × List (Nat × Notif)) :=
  let heightChanged := height ≠ (r.height : Int)
  let clear_work := s.transactions.isEmpty || decide heightChanged
  let s0 := if heightChanged then clear_for_new_height s else s
  let height' : Int := (r.height : Int)
  match fromHex r.bits with
  | none => none
  | some bits =>
  match fromHex r.previousblockhash with
  | none => none
  | some prev =>
  match fromHex r.default_witness_commitment with
  | none => none
  | some wc =>
  match update_transactions s0 clear_work r.version r.height bits now prev r.transactions
      r.coinbasevalue wc r.flags with
  | none => none
  | some (should_notify, s2) =>
    if should_notify then
      match s2.transport with
      | none => some (s2, height', [])
      | some t =>
      match s2.header_hash with
      | none => none
      | some hh =>
      match s2.seed_hash with
      | none => none
      | some sh =>
        let msgs := (if clear_work then [(t, Notif.setTarget r.target)] else []) ++
          [(t, Notif.notify "0" hh sh r.target clear_work height' r.bits)]
        let s3 := if clear_work then { s2 with wait_for_new_block := false } else s2
        some (s3, height', msgs)
    else some (s2, height', [])

/-! ## Specification-side definitions (for refinement comparisons)

`merkleRootSpec` follows the specification's words: "iteratively pairs
adjacent leaves (duplicating the last leaf when the count is odd at that
level) replacing each pair with `doubleHash(left‖right)` until one value
remains"; empty input gives `doubleHash(empty)`, a single leaf is returned
unchanged. -/

def merkleLevelSpec (l : List (List Nat)) : List (List Nat) :=
  (chunkPairs (if l.length % 2 = 1 then l ++ [l.getLastD []] else l)).map fun p =>
    dsha256 (p.1 ++ p.2)

def merkleRootSpecLoop : Nat → List (List Nat) → List Nat
  | 0, l => l.headD []
  | fuel + 1, l => if l.length ≤ 1 then l.headD [] else merkleRootSpecLoop fuel (merkleLevelSpec l)

def merkleRootSpec (l : List (List Nat)) : List Nat :=
  if l.isEmpty then dsha256 []
  else if l.length = 1 then l.headD []
  else merkleRootSpecLoop (l.length + 1) l

/-- Plain n-fold application, used to state the epoch iteration count. -/
def iterApply (f : α → α) : Nat → α → α
  | 0, a => a
  | n + 1, a => iterApply f n (f a)

/-! ## Concrete scenario data for counterexamples and witnesses -/

/-- The mainnet p2pkh address that appears in the repository's own test code;
its base58check decoding succeeds with version byte 60. -/
def demoAddress : String := "RMbuKtJdFf66Pr31shRZFf7fk3QsgJHbPS"

/-- Shared state after two sessions connected (session 0, then session 1) and
the miner authorized `demoAddress`; no candidate is held yet. -/
def demoState : TransactionState :=
  registerTransport
    (registerTransport
      { initialState with my_address := some demoAddress, last_ts := some 1000, update_counter := 0 }
      0)
    1

/-- A `getblocktemplate` result at height 100 with an empty mempool. -/
def demoTemplate : TemplateResult :=
  { height := 100, version := 536870912, bits := "1d00ffff",
    previousblockhash := String.join (List.replicate 32 "00"),
    transactions := [], coinbasevalue := 5000000000,
    default_witness_commitment := "", flags := "",
    target := "00000000ffff0000000000000000000000000000000000000000000000000000" }

/-- The state produced by a full candidate rebuild on `demoState`. -/
def demoBuilt : TransactionState :=
  ((update_transactions demoState true 536870912 100 [0x1d, 0x00, 0xff, 0xff] 1000
      (List.replicate 32 0) [] 5000000000 [] "").map Prod.snd).getD initialState

/-- A state holding a submitted-and-accepted candidate: `wait_for_new_block`
is set and the (stale) derived fields are still populated. -/
def lockedDemoState : TransactionState :=
  { initialState with
    transactions := [[1]]
    wait_for_new_block := true
    transport := some 0
    my_address := some demoAddress
    last_ts := some 1000
    merkle := some (List.replicate 32 1)
    header_hash := some (List.replicate 32 1)
    seed_hash := some (List.replicate 32 2)
    partial_header := some (List.replicate 80 0) }

/-- A state holding an active candidate, ready for `mining.submit`. -/
def submitDemoState : TransactionState :=
  { initialState with
    transactions := [[0xaa], [0xbb]]
    partial_header := some (List.replicate 80 0)
    my_address := some demoAddress }

/-- Two equal 32-byte leaves, for demonstrating the list mutation of
`merkle_from_txids`. -/
def mutDemoList : List (List Nat) := [List.replicate 32 0, List.replicate 32 0]

/-! ## Helper lemmas -/

theorem chunkPairs_snoc_even (x : α) : (l : List α) → l.length % 2 = 0 →
    chunkPairs (l ++ [x]) = chunkPairs l
  | [], _ => rfl
  | [_], h => by simp at h
  | a :: b :: rest, h => by
    have hr : rest.length % 2 = 0 := by simp [List.length_cons] at h; omega
    have ih := chunkPairs_snoc_even x rest hr
    simp [chunkPairs, ih]

theorem merkleStep_eq_spec (l : List (List Nat)) : merkleStep l = merkleLevelSpec l := by
  by_cases h : l.length % 2 = 1
  · simp [merkleStep, merkleLevelSpec, h]
  · have h0 : l.length % 2 = 0 := by omega
    simp [merkleStep, merkleLevelSpec, h, chunkPairs_snoc_even _ l h0]

theorem merkleLoop_eq_spec : ∀ fuel : Nat, ∀ l : List (List Nat),
    merkleLoop fuel l = merkleRootSpecLoop fuel l := by
  intro fuel
  induction fuel with
  | zero => intro l; rfl
  | succ n ih =>
    intro l
    simp only [merkleLoop, merkleRootSpecLoop, merkleStep_eq_spec, ih]

theorem merkle_eq_spec (l : List (List Nat)) : (merkle_from_txids l).1 = merkleRootSpec l := by
  unfold merkle_from_txids merkleRootSpec
  by_cases h1 : l.isEmpty <;> by_cases h2 : l.length = 1 <;>
    simp [h1, h2, merkleLoop_eq_spec]

theorem iterApply_succ (f : α → α) : ∀ (n : Nat) (a : α),
    iterApply f (n + 1) a = f (iterApply f n a)
  | 0, _ => rfl
  | n + 1, a => by
    show iterApply f (n + 1) (f a) = f (iterApply f (n + 1) a)
    rw [iterApply_succ f n (f a)]
    rfl

theorem foldl_range_iterApply (f : α → α) : ∀ (n : Nat) (a : α),
    (List.range n).foldl (fun x _ => f x) a = iterApply f n a := by
  intro n
  induction n with
  | zero => intro a; rfl
  | succ m ih =>
    intro a
    rw [List.range_succ, List.foldl_append, ih, iterApply_succ]
    rfl

/-! ## Claim theorems -/

/-- C7: `merkle_from_txids` of an empty sequence is `dsha256` of the empty
byte string, of a singleton is that element unchanged, and of any longer
sequence equals the specification algorithm that iteratively replaces
adjacent pairs with `dsha256 (left ++ right)`, duplicating the last leaf at
odd-length levels, until one value remains. -/
theorem C7_merkle_root_matches_spec :
    (merkle_from_txids []).1 = dsha256 []
    ∧ (∀ x : List Nat, (merkle_from_txids [x]).1 = x)
    ∧ (∀ l : List (List Nat), 2 ≤ l.length → (merkle_from_txids l).1 = merkleRootSpec l) :=
  ⟨rfl, fun _ => rfl, fun l _ => merkle_eq_spec l⟩

theorem C7_witness :
    2 ≤ ([[1], [2], [3]] : List (List Nat)).length
    ∧ (merkle_from_txids [[1], [2], [3]]).1 = merkleRootSpec [[1], [2], [3]] :=
  ⟨by decide, C7_merkle_root_matches_spec.2.2 [[1], [2], [3]] (by decide)⟩

set_option maxRecDepth 100000 in
/-- C10: for every list of length at least two, `merkle_from_txids` leaves the
caller's list with a duplicate of its last element appended (the first loop
iteration's `append` happens on the caller's object before rebinding), and on
the concrete two-leaf list the recomputed root over the mutated list differs
from the first root. -/
theorem C10_merkle_mutates_caller_list :
    (∀ l : List (List Nat), 2 ≤ l.length →
        (merkle_from_txids l).2 = l ++ [l.getLastD []])
    ∧ (merkle_from_txids (merkle_from_txids mutDemoList).2).1 ≠ (merkle_from_txids mutDemoList).1 := by
  constructor
  · intro l hl
    have h1 : l.isEmpty = false := by
      cases l with
      | nil => simp at hl
      | cons a t => rfl
    have h2 : ¬ l.length = 1 := by omega
    simp [merkle_from_txids, h1, h2]
  · decide

theorem C10_witness :
    2 ≤ mutDemoList.length
    ∧ (merkle_from_txids mutDemoList).2 = mutDemoList ++ [mutDemoList.getLastD []] :=
  ⟨by decide, C10_merkle_mutates_caller_list.1 mutDemoList (by decide)⟩

/-- C9: the stored seed hash for height `h` is exactly `h / 7500` keccak-256
iterations from 32 zero bytes, so it is identical for any two heights in the
same epoch and gains exactly one extra iteration when the epoch number
increases by one. -/
theorem C9_seed_hash_epoch_behavior :
    (∀ h : Nat, seed_hash_of h = iterApply keccak256 (h / KAWPOW_EPOCH_LENGTH) (List.replicate 32 0))
    ∧ (∀ h1 h2 : Nat, h1 / KAWPOW_EPOCH_LENGTH = h2 / KAWPOW_EPOCH_LENGTH →
        seed_hash_of h1 = seed_hash_of h2)
    ∧ (∀ h1 h2 : Nat, h2 / KAWPOW_EPOCH_LENGTH = h1 / KAWPOW_EPOCH_LENGTH + 1 →
        seed_hash_of h2 = keccak256 (seed_hash_of h1)) := by
  have key : ∀ h : Nat,
      seed_hash_of h = iterApply keccak256 (h / KAWPOW_EPOCH_LENGTH) (List.replicate 32 0) :=
    fun h => foldl_range_iterApply keccak256 _ _
  refine ⟨key, fun h1 h2 hh => ?_, fun h1 h2 hh => ?_⟩
  · rw [key, key, hh]
  · rw [key, key, hh, iterApply_succ]

theorem C9_witness :
    (100 / KAWPOW_EPOCH_LENGTH = 7400 / KAWPOW_EPOCH_LENGTH
      ∧ seed_hash_of 100 = seed_hash_of 7400)
    ∧ (7500 / KAWPOW_EPOCH_LENGTH = 7499 / KAWPOW_EPOCH_LENGTH + 1
      ∧ seed_hash_of 7500 = keccak256 (seed_hash_of 7499)) :=
  ⟨⟨by decide, C9_seed_hash_epoch_behavior.2.1 100 7400 (by decide)⟩,
   ⟨by decide, C9_seed_hash_epoch_behavior.2.2 7499 7500 (by decide)⟩⟩

/-- C8: `op_push` emits the claimed single byte below 0x4C and the claimed
marker bytes, but writes the 2- and 4-byte length fields big-endian, not
little-endian as the claim (and the pushdata wire format) states. -/
theorem C8_op_push_uses_big_endian :
    op_push 0x4B = some [0x4B]
    ∧ op_push 0xFF = some [0x4C, 0xFF]
    ∧ op_push 0x1234 = some [0x4D, 0x12, 0x34]
    ∧ op_push 0x1234 ≠ some [0x4D, 0x34, 0x12]
    ∧ op_push 0x10000 = some [0x4E, 0x00, 0x01, 0x00, 0x00]
    ∧ op_push 0x10000 ≠ some [0x4E, 0x00, 0x00, 0x01, 0x00] := by decide

/-- C4: the BIP34 height bytes are a length byte plus the little-endian height
with trailing zeros stripped (255 gives `01 FF`, 256 gives `02 00 01`), but at
height 0 the stripping loop empties the bytes and the next `make_height[-1]`
raises `IndexError` instead of re-padding with a zero byte, so the whole
coinbase build fails there. -/
theorem C4_bip34_height_encoding :
    bip34_height_bytes 0 = none
    ∧ bip34_height_bytes 255 = some [1, 255]
    ∧ bip34_height_bytes 256 = some [2, 0, 1]
    ∧ bip34_height_bytes 65536 = some [3, 0, 0, 1]
    ∧ build_coinbase_transaction 0 "" demoAddress 5000000000 [] = none := by decide

theorem handle_submit_ok_state (s : TransactionState) (nonce mix : String)
    (e r : Option String) (s' : TransactionState)
    (h : handle_submit s nonce mix e r = some (Except.ok true, s')) :
    s'.wait_for_new_block = true ∧ s'.transactions = [] := by
  unfold handle_submit at h
  split at h
  · simp at h
  · split at h
    · simp only [clear_for_new_height] at h
      split at h
      · simp at h
      · split at h
        · simp at h
        · injection h with h1
          injection h1 with h1 h2
          subst h2
          exact ⟨rfl, rfl⟩
    · simp at h

/-- C2 (amended): an `update_transactions` call made while `wait_for_new_block`
is set returns `true` immediately — not `false` as claimed — building no new
candidate and mutating nothing; the synchronizer reads this `true` as
"should notify", so a notification of the stale job is still triggered. -/
theorem C2_locked_update_returns_true (s : TransactionState) (nh : Bool) (v h : Nat)
    (bits : List Nat) (ts : Nat) (prev : List Nat) (inc : List (String × String))
    (sats : Nat) (wc : List Nat) (fl : String)
    (hlock : s.wait_for_new_block = true) :
    update_transactions s nh v h bits ts prev inc sats wc fl = some (true, s) := by
  unfold update_transactions
  rw [hlock]
  simp

theorem C2_witness :
    lockedDemoState.wait_for_new_block = true
    ∧ update_transactions lockedDemoState true 1 2 [] 3 [] [] 4 [] "" =
        some (true, lockedDemoState) :=
  ⟨rfl, C2_locked_update_returns_true lockedDemoState true 1 2 [] 3 [] [] 4 [] "" rfl⟩

/-- C2 counterexample: on a locked state `update_transactions` returns `true`
(the claim says `false`), and a synchronizer tick on that state still emits a
notification. -/
theorem C2_counterexample :
    lockedDemoState.wait_for_new_block = true
    ∧ (update_transactions lockedDemoState false 0 100 [] 1000 [] [] 0 [] "").map Prod.fst =
        some true
    ∧ (query_loop_tick lockedDemoState 100 demoTemplate 1000).map (fun p => p.2.2.length) =
        some 1 := by decide

/-- C1 (amended): on an accepted `mining.submit` (null error, null result) the
session sets `wait_for_new_block` and returns success, but the handler has
already cleared the held transaction list itself, unconditionally, before the
node's response was even known — the cached candidate's transactions are not
left intact for the synchronizer to clear. -/
theorem C1_submit_success_sets_lock_and_clears (s : TransactionState) (nonce mix : String)
    (ph vi nb mb : List Nat)
    (hwait : s.wait_for_new_block = false)
    (hne : s.transactions.isEmpty = false)
    (hph : s.partial_header = some ph)
    (hvi : var_int s.transactions.length = some vi)
    (hn : fromHex (nonce.drop 2) = some nb)
    (hm : fromHex (mix.drop 2) = some mb) :
    handle_submit s nonce mix none none =
      some (Except.ok true, { s with transactions := [], wait_for_new_block := true }) := by
  unfold handle_submit
  have hpb : partial_block s = some (ph.reverse, vi ++ s.transactions.flatten) := by
    unfold partial_block
    rw [hph, hvi]
  rw [hwait, hne, hpb, hn, hm]
  simp [truthyResp, clear_for_new_height]

theorem C1_witness :
    (submitDemoState.wait_for_new_block = false
     ∧ submitDemoState.transactions.isEmpty = false
     ∧ submitDemoState.partial_header = some (List.replicate 80 0)
     ∧ var_int submitDemoState.transactions.length = some [2]
     ∧ fromHex (String.drop "0x00" 2) = some [0])
    ∧ handle_submit submitDemoState "0x00" "0x00" none none =
        some (Except.ok true, { submitDemoState with transactions := [], wait_for_new_block := true }) :=
  ⟨⟨rfl, rfl, by decide, by decide, by decide⟩,
   C1_submit_success_sets_lock_and_clears submitDemoState "0x00" "0x00"
     (List.replicate 80 0) [2] [0] [0] rfl rfl (by decide) (by decide) (by decide) (by decide)⟩

/-- C1 counterexample: a successful submit on a state holding two transactions
returns success with the transaction list already emptied by the handler
itself — the held work is not left intact until the synchronizer's next
height-change tick. -/
theorem C1_counterexample :
    submitDemoState.transactions = [[0xaa], [0xbb]]
    ∧ handle_submit submitDemoState "0x00" "0x00" none none =
        some (Except.ok true, { submitDemoState with transactions := [], wait_for_new_block := true })
    ∧ ([[0xaa], [0xbb]] : List (List Nat)) ≠ [] := by decide

/-- C6: `mining.submit` fails with the code-1 "Waiting for next block
template" error whenever `wait_for_new_block` is set or no candidate exists,
and after one accepted submit any second submit fails that way, with any
arguments and any node response, before a new template arrives. -/
theorem C6_submit_noactivework_guard :
    (∀ (s : TransactionState) (nonce mix : String) (e r : Option String),
        s.wait_for_new_block = true ∨ s.transactions = [] →
        handle_submit s nonce mix e r =
          some (Except.error (1, "Waiting for next block template"), s))
    ∧ (∀ (s : TransactionState) (nonce mix : String) (e r : Option String)
        (s' : TransactionState) (nonce2 mix2 : String) (e2 r2 : Option String),
        handle_submit s nonce mix e r = some (Except.ok true, s') →
        handle_submit s' nonce2 mix2 e2 r2 =
          some (Except.error (1, "Waiting for next block template"), s')) := by
  have guard : ∀ (s : TransactionState) (nonce mix : String) (e r : Option String),
      s.wait_for_new_block = true ∨ s.transactions = [] →
      handle_submit s nonce mix e r =
        some (Except.error (1, "Waiting for next block template"), s) := by
    intro s nonce mix e r hor
    have hcond : (s.wait_for_new_block || s.transactions.isEmpty) = true := by
      rcases hor with h | h
      · simp [h]
      · simp [h]
    unfold handle_submit
    rw [hcond]
    simp
  refine ⟨guard, fun s nonce mix e r s' nonce2 mix2 e2 r2 hok => ?_⟩
  exact guard s' nonce2 mix2 e2 r2 (Or.inl (handle_submit_ok_state s nonce mix e r s' hok).1)

theorem C6_witness :
    ((initialState.wait_for_new_block = true ∨ initialState.transactions = [])
     ∧ handle_submit initialState "a" "b" none none =
        some (Except.error (1, "Waiting for next block template"), initialState))
    ∧ (handle_submit submitDemoState "0x00" "0x00" none none =
        some (Except.ok true, { submitDemoState with transactions := [], wait_for_new_block := true })
       ∧ handle_submit { submitDemoState with transactions := [], wait_for_new_block := true }
           "1z" "2w" (some "boom") none =
        some (Except.error (1, "Waiting for next block template"),
          { submitDemoState with transactions := [], wait_for_new_block := true })) :=
  ⟨⟨Or.inr rfl, C6_submit_noactivework_guard.1 initialState "a" "b" none none (Or.inr rfl)⟩,
   ⟨by decide,
    C6_submit_noactivework_guard.2 submitDemoState "0x00" "0x00" none none
      { submitDemoState with transactions := [], wait_for_new_block := true }
      "1z" "2w" (some "boom") none (by decide)⟩⟩

theorem toBytesBE_eq_some {w n : Nat} {l : List Nat} (h : toBytesBE w n = some l) :
    l = beBytes w n := by
  unfold toBytesBE at h
  split at h
  · injection h with h
    exact h.symm
  · simp at h

/-- Full case analysis of a normally-returning `update_transactions` call made
while the submission lock is not set: a `false` return mutates none of the
candidate fields, and a `true` return stores exactly the derived values of the
freshly rebuilt candidate. -/
theorem update_characterization (s : TransactionState) (nh : Bool) (v hgt : Nat)
    (bits : List Nat) (ts : Nat) (prev : List Nat) (inc : List (String × String))
    (sats : Nat) (wc : List Nat) (fl : String) (b : Bool) (s' : TransactionState)
    (hw : s.wait_for_new_block = false)
    (hupd : update_transactions s nh v hgt bits ts prev inc sats wc fl = some (b, s')) :
    (b = false →
      s'.transactions = s.transactions ∧ s'.merkle = s.merkle
      ∧ s'.header_hash = s.header_hash ∧ s'.seed_hash = s.seed_hash
      ∧ s'.partial_header = s.partial_header ∧ s'.coinbase = s.coinbase
      ∧ s'.coinbase_no_wit = s.coinbase_no_wit ∧ s'.transport = s.transport
      ∧ s'.wait_for_new_block = false)
    ∧ (b = true →
      ∃ cb cbnw parsed ph,
        parseIncoming inc = some parsed
        ∧ s'.coinbase = some cb
        ∧ s'.coinbase_no_wit = some cbnw
        ∧ s'.transactions = cb :: parsed.map Prod.fst
        ∧ s'.merkle = some ((merkle_from_txids (dsha256 cbnw :: parsed.map Prod.snd)).1)
        ∧ s'.partial_header = some ph
        ∧ s'.header_hash = some ((dsha256 ph.reverse).reverse)
        ∧ s'.seed_hash = some (seed_hash_of hgt)
        ∧ (∃ tsB, ph = beBytes 4 hgt ++ bits ++ tsB ++
            ((merkle_from_txids (dsha256 cbnw :: parsed.map Prod.snd)).1).reverse ++ prev ++ beBytes 4 v)
        ∧ s'.transport = s.transport
        ∧ s'.wait_for_new_block = false) := by
  unfold update_transactions at hupd
  simp only [hw, Bool.false_eq_true, if_false] at hupd
  split at hupd
  · simp at hupd
  · split at hupd
    · simp only [Option.some.injEq, Prod.mk.injEq] at hupd
      obtain ⟨hb, hs⟩ := hupd
      subst hb
      subst hs
      exact ⟨fun _ => ⟨rfl, rfl, rfl, rfl, rfl, rfl, rfl, rfl, rfl⟩, fun ht => by simp at ht⟩
    · split at hupd
      · simp only [Option.some.injEq, Prod.mk.injEq] at hupd
        obtain ⟨hb, hs⟩ := hupd
        subst hb
        subst hs
        exact ⟨fun _ => ⟨rfl, rfl, rfl, rfl, rfl, rfl, rfl, rfl, rfl⟩, fun ht => by simp at ht⟩
      · split at hupd
        · split at hupd
          · simp at hupd
          · rename_i cb cbnw heqCoin
            split at hupd
            · simp at hupd
            · rename_i parsed heqParse
              split at hupd
              · rename_i heightB tsB versionB heqH heqT heqV
                simp only [Option.some.injEq, Prod.mk.injEq] at hupd
                obtain ⟨hb, hs⟩ := hupd
                subst hb
                subst hs
                refine ⟨fun hf => by simp at hf, fun _ => ?_⟩
                refine ⟨cb, cbnw, parsed, _, heqParse, rfl, rfl, rfl, rfl, rfl, rfl, rfl,
                  ⟨tsB, ?_⟩, rfl, rfl⟩
                rw [toBytesBE_eq_some heqH, toBytesBE_eq_some heqV]
              · simp at hupd
        · simp only [Option.some.injEq, Prod.mk.injEq] at hupd
          obtain ⟨hb, hs⟩ := hupd
          subst hb
          subst hs
          exact ⟨fun _ => ⟨rfl, rfl, rfl, rfl, rfl, rfl, rfl, rfl, rfl⟩, fun ht => by simp at ht⟩

theorem update_preserves_transport (s : TransactionState) (nh : Bool) (v hgt : Nat)
    (bits : List Nat) (ts : Nat) (prev : List Nat) (inc : List (String × String))
    (sats : Nat) (wc : List Nat) (fl : String) (b : Bool) (s' : TransactionState)
    (hupd : update_transactions s nh v hgt bits ts prev inc sats wc fl = some (b, s')) :
    s'.transport = s.transport := by
  cases hwb : s.wait_for_new_block with
  | true =>
    unfold update_transactions at hupd
    split at hupd
    · simp only [Option.some.injEq, Prod.mk.injEq] at hupd
      obtain ⟨_, hs⟩ := hupd
      subst hs
      rfl
    · rename_i hcond
      exact absurd hwb hcond
  | false =>
    have h := update_characterization s nh v hgt bits ts prev inc sats wc fl b s' hwb hupd
    cases b with
    | false => exact (h.1 rfl).2.2.2.2.2.2.2.1
    | true =>
      obtain ⟨_, _, _, _, _, _, _, _, _, _, _, _, _, htr, _⟩ := h.2 rfl
      exact htr

/-- Full characterization of the notifications a synchronizer tick sends: when
any are sent at all, they all go to the single registered transport, there is
a target update exactly when `clear_work` holds (height changed or the held
transaction list was empty), and the job notification's clean-jobs flag equals
that same `clear_work` value. -/
theorem tick_notifications (s : TransactionState) (height : Int) (r : TemplateResult) (now : Nat)
    (s3 : TransactionState) (h' : Int) (msgs : List (Nat × Notif))
    (htick : query_loop_tick s height r now = some (s3, h', msgs))
    (hmsgs : msgs ≠ []) :
    ∃ t hh sh,
      s.transport = some t
      ∧ s3.transport = some t
      ∧ msgs = (if s.transactions.isEmpty || decide (height ≠ (r.height : Int))
                then [(t, Notif.setTarget r.target)] else [])
          ++ [(t, Notif.notify "0" hh sh r.target
                (s.transactions.isEmpty || decide (height ≠ (r.height : Int)))
                ((r.height : Int)) r.bits)] := by
  unfold query_loop_tick at htick
  dsimp only at htick
  split at htick
  · simp at htick
  · rename_i bits heqBits
    split at htick
    · simp at htick
    · rename_i prev heqPrev
      split at htick
      · simp at htick
      · rename_i wc heqWc
        split at htick
        · simp at htick
        · rename_i sn s2 hequpd
          have htr2 : s2.transport = s.transport := by
            have h0 := update_preserves_transport _ _ _ _ _ _ _ _ _ _ _ _ _ hequpd
            rw [h0]
            split
            · rfl
            · rfl
          split at htick
          · split at htick
            · simp only [Option.some.injEq, Prod.mk.injEq] at htick
              obtain ⟨_, _, hm⟩ := htick
              exact absurd hm.symm hmsgs
            · rename_i t heqTrans
              split at htick
              · simp at htick
              · rename_i hh heqHh
                split at htick
                · simp at htick
                · rename_i sh heqSh
                  simp only [Option.some.injEq, Prod.mk.injEq] at htick
                  obtain ⟨hs3, hh', hm⟩ := htick
                  subst hs3
                  subst hm
                  refine ⟨t, hh, sh, ?_, ?_, rfl⟩
                  · rw [← htr2]
                    exact heqTrans
                  · split
                    · exact heqTrans
                    · exact heqTrans
          · simp only [Option.some.injEq, Prod.mk.injEq] at htick
            obtain ⟨_, _, hm⟩ := htick
            exact absurd hm.symm hmsgs

/-- C3 (amended): after a candidate rebuild (`update_transactions` returning
true from an unlocked state) the stored `merkle`, `header_hash` and
`seed_hash` are exactly the values derived from the freshly stored
transactions and height, and a non-rebuilding call leaves them untouched; but
`clear_for_new_height` (used on height changes and unconditionally during
submit) empties only the transaction list, leaving the three derived fields at
their previous, now-stale values. -/
theorem C3_derived_fields_after_mutations :
    (∀ s : TransactionState,
      (clear_for_new_height s).transactions = []
      ∧ (clear_for_new_height s).merkle = s.merkle
      ∧ (clear_for_new_height s).header_hash = s.header_hash
      ∧ (clear_for_new_height s).seed_hash = s.seed_hash)
    ∧ (∀ (s : TransactionState) (nh : Bool) (v hgt : Nat) (bits : List Nat) (ts : Nat)
        (prev : List Nat) (inc : List (String × String)) (sats : Nat) (wc : List Nat)
        (fl : String) (s' : TransactionState),
        s.wait_for_new_block = false →
        update_transactions s nh v hgt bits ts prev inc sats wc fl = some (false, s') →
        s'.transactions = s.transactions ∧ s'.merkle = s.merkle
          ∧ s'.header_hash = s.header_hash ∧ s'.seed_hash = s.seed_hash)
    ∧ (∀ (s : TransactionState) (nh : Bool) (v hgt : Nat) (bits : List Nat) (ts : Nat)
        (prev : List Nat) (inc : List (String × String)) (sats : Nat) (wc : List Nat)
        (fl : String) (s' : TransactionState),
        s.wait_for_new_block = false →
        update_transactions s nh v hgt bits ts prev inc sats wc fl = some (true, s') →
        ∃ cb cbnw parsed ph,
          parseIncoming inc = some parsed
          ∧ s'.coinbase_no_wit = some cbnw
          ∧ s'.transactions = cb :: parsed.map Prod.fst
          ∧ s'.merkle = some ((merkle_from_txids (dsha256 cbnw :: parsed.map Prod.snd)).1)
          ∧ s'.partial_header = some ph
          ∧ s'.header_hash = some ((dsha256 ph.reverse).reverse)
          ∧ s'.seed_hash = some (seed_hash_of hgt)
          ∧ ∃ tsB, ph = beBytes 4 hgt ++ bits ++ tsB ++
              ((merkle_from_txids (dsha256 cbnw :: parsed.map Prod.snd)).1).reverse ++
              prev ++ beBytes 4 v) := by
  refine ⟨fun s => ⟨rfl, rfl, rfl, rfl⟩, ?_, ?_⟩
  · intro s nh v hgt bits ts prev inc sats wc fl s' hw hupd
    have h := (update_characterization s nh v hgt bits ts prev inc sats wc fl false s' hw hupd).1 rfl
    exact ⟨h.1, h.2.1, h.2.2.1, h.2.2.2.1⟩
  · intro s nh v hgt bits ts prev inc sats wc fl s' hw hupd
    obtain ⟨cb, cbnw, parsed, ph, hparse, _, hnw, htx, hmk, hph, hhh, hsd, hphEq, _, _⟩ :=
      (update_characterization s nh v hgt bits ts prev inc sats wc fl true s' hw hupd).2 rfl
    exact ⟨cb, cbnw, parsed, ph, hparse, hnw, htx, hmk, hph, hhh, hsd, hphEq⟩

set_option maxRecDepth 100000 in
theorem C3_witness :
    demoState.wait_for_new_block = false
    ∧ ∃ s', update_transactions demoState true 536870912 100 [0x1d, 0x00, 0xff, 0xff] 1000
          (List.replicate 32 0) [] 5000000000 [] "" = some (true, s')
        ∧ ∃ cb cbnw parsed ph,
            parseIncoming [] = some parsed
            ∧ s'.coinbase_no_wit = some cbnw
            ∧ s'.transactions = cb :: parsed.map Prod.fst
            ∧ s'.merkle = some ((merkle_from_txids (dsha256 cbnw :: parsed.map Prod.snd)).1)
            ∧ s'.partial_header = some ph
            ∧ s'.header_hash = some ((dsha256 ph.reverse).reverse)
            ∧ s'.seed_hash = some (seed_hash_of 100)
            ∧ ∃ tsB, ph = beBytes 4 100 ++ [0x1d, 0x00, 0xff, 0xff] ++ tsB ++
                ((merkle_from_txids (dsha256 cbnw :: parsed.map Prod.snd)).1).reverse ++
                List.replicate 32 0 ++ beBytes 4 536870912 :=
  ⟨rfl, _, rfl,
    C3_derived_fields_after_mutations.2.2 demoState true 536870912 100 [0x1d, 0x00, 0xff, 0xff]
      1000 (List.replicate 32 0) [] 5000000000 [] "" _ rfl rfl⟩

set_option maxRecDepth 100000 in
/-- C3 counterexample: after the covered mutating operation
`clear_for_new_height`, run on a state freshly built by `update_transactions`,
the stored transaction list is empty while `merkle` (likewise `header_hash`,
`seed_hash`) still holds the value derived from the previous, nonempty list —
so the derived fields are not consistent with (nor a function of) the
currently stored transactions. -/
theorem C3_counterexample :
    demoBuilt.transactions ≠ []
    ∧ demoBuilt.merkle ≠ none
    ∧ (clear_for_new_height demoBuilt).transactions = []
    ∧ (clear_for_new_height demoBuilt).merkle = demoBuilt.merkle
    ∧ (clear_for_new_height demoBuilt).header_hash = demoBuilt.header_hash
    ∧ (clear_for_new_height demoBuilt).transactions = (clear_for_new_height initialState).transactions
    ∧ (clear_for_new_height demoBuilt).merkle ≠ (clear_for_new_height initialState).merkle := by
  refine ⟨?_, ?_, rfl, rfl, rfl, rfl, ?_⟩ <;> decide

/-- C5 (amended): registering a session overwrites the single shared
transport, and whenever a synchronizer tick sends notifications at all they
go only to that most recently registered transport — not to every connected
session — with the target update present, and the clean-jobs flag true,
exactly when `clear_work` holds (the height changed *or* the held transaction
list was empty), not exactly when the height changed. -/
theorem C5_notifications_single_transport :
    (∀ (s : TransactionState) (i j : Nat),
      (registerTransport (registerTransport s i) j).transport = some j)
    ∧ (∀ (s : TransactionState) (height : Int) (r : TemplateResult) (now : Nat)
        (s3 : TransactionState) (h' : Int) (msgs : List (Nat × Notif)),
        query_loop_tick s height r now = some (s3, h', msgs) →
        msgs ≠ [] →
        ∃ t hh sh,
          s.transport = some t
          ∧ s3.transport = some t
          ∧ msgs = (if s.transactions.isEmpty || decide (height ≠ (r.height : Int))
                    then [(t, Notif.setTarget r.target)] else [])
              ++ [(t, Notif.notify "0" hh sh r.target
                    (s.transactions.isEmpty || decide (height ≠ (r.height : Int)))
                    ((r.height : Int)) r.bits)]) :=
  ⟨fun _ _ _ => rfl,
   fun s height r now s3 h' msgs htick hmsgs =>
     tick_notifications s height r now s3 h' msgs htick hmsgs⟩

set_option maxRecDepth 100000 in
theorem C5_witness :
    ∃ s3 h2 msgs,
      query_loop_tick lockedDemoState 100 demoTemplate 1000 = some (s3, h2, msgs)
      ∧ msgs ≠ []
      ∧ ∃ t hh sh,
          lockedDemoState.transport = some t
          ∧ s3.transport = some t
          ∧ msgs = (if lockedDemoState.transactions.isEmpty ||
                      decide ((100 : Int) ≠ (demoTemplate.height : Int))
                    then [(t, Notif.setTarget demoTemplate.target)] else [])
              ++ [(t, Notif.notify "0" hh sh demoTemplate.target
                    (lockedDemoState.transactions.isEmpty ||
                      decide ((100 : Int) ≠ (demoTemplate.height : Int)))
                    ((demoTemplate.height : Int)) demoTemplate.bits)] := by
  refine ⟨_, _, _, rfl, by decide,
    C5_notifications_single_transport.2 lockedDemoState 100 demoTemplate 1000 _ _ _ rfl (by decide)⟩

set_option maxRecDepth 100000 in
/-- C5 counterexample: with sessions 0 and 1 both registered (never
deregistered), a tick at an *unchanged* height that builds a new candidate
(the transaction list goes from empty to one element) sends both of its
notifications only to session 1 — session 0 receives nothing — and it sends a
target update, with clean-jobs true, even though the height did not change. -/
theorem C5_counterexample :
    demoState = registerTransport (registerTransport
      { initialState with my_address := some demoAddress, last_ts := some 1000, update_counter := 0 }
      0) 1
    ∧ (query_loop_tick demoState 100 demoTemplate 1000).map (fun p => p.2.2.map Prod.fst) =
        some [1, 1]
    ∧ (query_loop_tick demoState 100 demoTemplate 1000).map
        (fun p => p.2.2.map (fun m => m.2.isSetTarget)) = some [true, false]
    ∧ (query_loop_tick demoState 100 demoTemplate 1000).map
        (fun p => p.2.2.map (fun m => m.2.cleanFlag)) = some [false, true]
    ∧ (query_loop_tick demoState 100 demoTemplate 1000).map (fun p => p.1.transactions.length) =
        some 1
    ∧ demoState.transactions = []
    ∧ (100 : Int) = (demoTemplate.height : Int) := by
  refine ⟨rfl, ?_, ?_, ?_, ?_, rfl, rfl⟩ <;> decide

end StratumProxy
